import Mathlib

/-!
Verification development for the code-switch provider-blacklist core.

The only source file of the repository is `services/database.go`: it holds
`InitDatabase` (directory setup, pool init, table provisioning, prewarm) and
`ensureBlacklistTables` (the `app_settings` and `provider_blacklist` schemas
plus the three `INSERT OR IGNORE` default settings).  The SQLite statements it
issues are embedded as pure state transformers below.  The blacklist engine
itself (`RecordFailure`, `RecordSuccess`, `IsBlacklisted`, escalation) is not
part of the given source; those operations are modelled from the spec and are
marked as such.
-/

namespace CodeSwitch

/-! ## Embedding of the persisted store (from `services/database.go`) -/

/-- One row of the `provider_blacklist` table, mirroring the schema in
`ensureBlacklistTables`: the `DEFAULT 0` integer columns default to `0`
(`auto_recovered INTEGER DEFAULT 0` is the boolean flag `false`), and the
`DATETIME` columns are nullable with no default (`none`).  The
`AUTOINCREMENT` surrogate id is not observable through the claims and is
omitted. -/
structure BlacklistRow where
  platform : String
  provider_name : String
  failure_count : Nat := 0
  blacklisted_at : Option Nat := none
  blacklisted_until : Option Nat := none
  last_failure_at : Option Nat := none
  blacklist_level : Nat := 0
  last_recovered_at : Option Nat := none
  last_degrade_hour : Nat := 0
  last_failure_window_start : Option Nat := none
  auto_recovered : Bool := false
deriving DecidableEq, Repr

/-- The database state seen by `ensureBlacklistTables`: each table is `none`
while it does not exist yet (`CREATE TABLE IF NOT EXISTS` creates it empty)
and `some rows` once created. `app_settings` rows are (key, value) pairs. -/
structure AppDB where
  app_settings : Option (List (String × String)) := none
  provider_blacklist : Option (List BlacklistRow) := none
deriving DecidableEq, Repr

/-- `SELECT value FROM app_settings WHERE key = k` on the row list. -/
def lookupSetting (t : List (String × String)) (k : String) : Option String :=
  (t.find? (fun p => p.1 == k)).map (fun p => p.2)

/-- `INSERT OR IGNORE INTO app_settings (key, value) VALUES (k, v)`:
because `key` is UNIQUE, the row is appended only when the key is absent. -/
def insertOrIgnore (t : List (String × String)) (k v : String) :
    List (String × String) :=
  if t.any (fun p => p.1 == k) then t else t ++ [(k, v)]

/-- Folding step used for the default-settings loop of
`ensureBlacklistTables`. -/
def settingsStep (t : List (String × String)) (kv : String × String) :
    List (String × String) :=
  insertOrIgnore t kv.1 kv.2

/-- The `defaultSettings` slice of `ensureBlacklistTables`. -/
def defaultSettings : List (String × String) :=
  [("enable_blacklist", "true"),
   ("blacklist_failure_threshold", "3"),
   ("blacklist_duration_minutes", "30")]

/-- `ensureBlacklistTables` (success path): create `app_settings` if absent,
create `provider_blacklist` if absent, then `INSERT OR IGNORE` the three
default settings. -/
def ensureBlacklistTables (db : AppDB) : AppDB :=
  let s := db.app_settings.getD []
  let b := db.provider_blacklist.getD []
  { app_settings := some (defaultSettings.foldl settingsStep s),
    provider_blacklist := some b }

/-- Which external steps of `InitDatabase` fail; each flag models the error
result of one fallible call in the Go function (home-dir lookup, `MkdirAll`,
`xdb.Inits`, `ensureRequestLogTable`, the statements of
`ensureBlacklistTables`, `xdb.DB` during prewarm, and the prewarm
`SELECT COUNT(*)`). -/
structure InitEnv where
  userHomeDirFails : Bool := false
  mkdirAllFails : Bool := false
  xdbInitsFails : Bool := false
  requestLogTableFails : Bool := false
  blacklistTablesFails : Bool := false
  prewarmDBFails : Bool := false
  prewarmQueryFails : Bool := false
deriving DecidableEq, Repr

/-- `InitDatabase`: the sequence of fallible steps of the Go function, each
returning early with a wrapped error; the final prewarm only prints a log
line (failure or success) and never produces an error.  Returns the resulting
store (on success) together with the prewarm log lines. -/
def InitDatabase (e : InitEnv) (db : AppDB) :
    Except String AppDB × List String :=
  if e.userHomeDirFails then (Except.error "get user home dir failed", [])
  else if e.mkdirAllFails then (Except.error "create config dir failed", [])
  else if e.xdbInitsFails then (Except.error "init database failed", [])
  else if e.requestLogTableFails then
    (Except.error "init request_log table failed", [])
  else if e.blacklistTablesFails then
    (Except.error "init blacklist tables failed", [])
  else
    let db2 := ensureBlacklistTables db
    if e.prewarmDBFails then (Except.ok db2, [])
    else if e.prewarmQueryFails then
      (Except.ok db2, ["prewarm query failed"])
    else (Except.ok db2, ["database prewarmed"])

/-- `true` when an `Except` result is a success. -/
def initOk (x : Except String AppDB) : Bool :=
  match x with
  | Except.ok _ => true
  | Except.error _ => false

/-! ## Store-level operations on `provider_blacklist` -/

/-- Does the table already hold a row for this (platform, provider_name)
pair? -/
def hasKey (t : List BlacklistRow) (p n : String) : Bool :=
  t.any (fun r => r.platform == p && r.provider_name == n)

/-- Insert a row; the `UNIQUE(platform, provider_name)` constraint rejects
the insert (returns `none`) when a row with the same pair exists. -/
def insertRow (t : List BlacklistRow) (r : BlacklistRow) :
    Option (List BlacklistRow) :=
  if hasKey t r.platform r.provider_name then none else some (t ++ [r])

/-- Update the non-key columns of the row with the given pair (an
`UPDATE ... WHERE platform = p AND provider_name = n`): the identity columns
are never rewritten. -/
def updateRow (t : List BlacklistRow) (p n : String)
    (f : BlacklistRow → BlacklistRow) : List BlacklistRow :=
  t.map (fun r =>
    if r.platform = p ∧ r.provider_name = n then
      { f r with platform := r.platform, provider_name := r.provider_name }
    else r)

/-- A fresh row inserted with only `platform` and `provider_name` given: all
other columns take their schema defaults. -/
def newBlacklistRow (p n : String) : BlacklistRow :=
  { platform := p, provider_name := n }

/-- Table states reachable through the store's operations: the empty table
just after creation, a constraint-checked insert, and a non-key update. -/
inductive Reachable : List BlacklistRow → Prop
  | empty : Reachable []
  | insertStep {t t' : List BlacklistRow} {r : BlacklistRow} :
      Reachable t → insertRow t r = some t' → Reachable t'
  | updateStep {t : List BlacklistRow} (p n : String)
      (f : BlacklistRow → BlacklistRow) :
      Reachable t → Reachable (updateRow t p n f)

/-- Any two distinct rows differ in `platform` or in `provider_name`. -/
def KeyDistinct (t : List BlacklistRow) : Prop :=
  t.Pairwise (fun a b => a.platform ≠ b.platform ∨ a.provider_name ≠ b.provider_name)

/-! ## The blacklist engine, modelled from the spec

The engine's code is not in the given source; these definitions follow the
spec text (§3, §4.3, §4.4, §4.5).  Time is in minutes; an hour bucket is
`now / 60`. -/

/-- Modelled from the spec: `BlacklistSettings` (§3) — `enabled`,
`failureThreshold`, `blacklistDurationMinutes`. -/
structure BlacklistSettings where
  enabled : Bool
  failureThreshold : Nat
  blacklistDurationMinutes : Nat
deriving DecidableEq, Repr

/-- Modelled from the spec: the in-memory `ProviderHealthRecord` (§3),
identity fields omitted (the engine operations below act on one provider's
record). -/
structure ProviderHealthRecord where
  failureCount : Nat := 0
  failureWindowStart : Option Nat := none
  lastFailureAt : Option Nat := none
  blacklistLevel : Nat := 0
  blacklistedAt : Option Nat := none
  blacklistedUntil : Option Nat := none
  lastDegradeHour : Nat := 0
  lastRecoveredAt : Option Nat := none
  autoRecovered : Bool := false
deriving DecidableEq, Repr

/-- Modelled from the spec: a record born healthy (GetOrCreate's fresh
record, §4.2). -/
def healthyRecord : ProviderHealthRecord := {}

/-- Modelled from the spec: the maximum escalation level (§4.4 step 2, "e.g.
5"). -/
def maxBlacklistLevel : Nat := 5

/-- Modelled from the spec: monotone backoff multiplier (§9 suggests
`min(2^(level-1), cap)`). -/
def backoff (level : Nat) : Nat :=
  min (2 ^ (level - 1)) 16

/-- Modelled from the spec: EscalationPolicy (§4.4).  Skip entirely when the
level was already raised in the current hour bucket; otherwise raise the
level (capped), stamp the hour, set `blacklistedAt` only if not currently
blacklisted, set `blacklistedUntil = now + duration × backoff(newLevel)`, and
clear `autoRecovered`. -/
def escalate (s : BlacklistSettings) (now : Nat) (r : ProviderHealthRecord) :
    ProviderHealthRecord :=
  let currentHour := now / 60
  if r.lastDegradeHour = currentHour then r
  else
    let newLevel := min (r.blacklistLevel + 1) maxBlacklistLevel
    let cooldown := s.blacklistDurationMinutes * backoff newLevel
    let newAt := match r.blacklistedUntil with
      | some u => if now < u then r.blacklistedAt else some now
      | none => some now
    { r with blacklistLevel := newLevel,
             lastDegradeHour := currentHour,
             blacklistedAt := newAt,
             blacklistedUntil := some (now + cooldown),
             autoRecovered := false }

/-- Modelled from the spec: the window maintenance of `RecordFailure` (§4.3
steps 1–2): reset window and count when no window is open or the window's age
exceeds `blacklistDurationMinutes`. -/
def windowReset (s : BlacklistSettings) (now : Nat)
    (r : ProviderHealthRecord) : ProviderHealthRecord :=
  match r.failureWindowStart with
  | none => { r with failureWindowStart := some now, failureCount := 0 }
  | some ws =>
    if s.blacklistDurationMinutes < now - ws then
      { r with failureWindowStart := some now, failureCount := 0 }
    else r

/-- Modelled from the spec: `RecordFailure` (§4.3 steps 2–4): maintain the
window, increment the count, stamp `lastFailureAt`, and invoke the escalation
policy when the threshold is reached and blacklisting is enabled. -/
def recordFailure (s : BlacklistSettings) (now : Nat)
    (r : ProviderHealthRecord) : ProviderHealthRecord :=
  let r1 := windowReset s now r
  let r2 := { r1 with failureCount := r1.failureCount + 1,
                      lastFailureAt := some now }
  if s.failureThreshold ≤ r2.failureCount ∧ s.enabled = true then
    escalate s now r2
  else r2

/-- Modelled from the spec: `RecordSuccess` (§4.3): advisory only while
healthy, ignored while blacklisted — no state change in this core. -/
def recordSuccess (_now : Nat) (r : ProviderHealthRecord) :
    ProviderHealthRecord := r

/-- Modelled from the spec: the lazy-expiry write of `IsBlacklisted` (§4.5
step 4): clear the blacklist window, set `autoRecovered`, stamp
`lastRecoveredAt`; the level is untouched. -/
def recoverRecord (now : Nat) (r : ProviderHealthRecord) :
    ProviderHealthRecord :=
  { r with blacklistedAt := none,
           blacklistedUntil := none,
           autoRecovered := true,
           lastRecoveredAt := some now }

/-- Modelled from the spec: `IsBlacklisted` (§4.5), returning the answer and
the (possibly lazily recovered) stored record.  Disabled blacklisting
bypasses everything; a missing record or unset `blacklistedUntil` is healthy;
an expired cooldown is cleared on read; otherwise the provider is
blacklisted. -/
def isBlacklisted (s : BlacklistSettings) (now : Nat)
    (r : Option ProviderHealthRecord) : Bool × Option ProviderHealthRecord :=
  if s.enabled = false then (false, r)
  else
    match r with
    | none => (false, none)
    | some x =>
      match x.blacklistedUntil with
      | none => (false, some x)
      | some u =>
        if u ≤ now then (false, some (recoverRecord now x))
        else (true, some x)

/-- A sample record sitting under an active blacklist window (level 1,
cooldown from minute 0 to minute 30); used to instantiate the theorems
below. -/
def sampleBlacklisted : ProviderHealthRecord :=
  { blacklistLevel := 1, blacklistedAt := some 0, blacklistedUntil := some 30 }

/-! ## Lemmas about the `app_settings` embedding -/

theorem lookupSetting_insertOrIgnore_self (t : List (String × String))
    (k v : String) :
    lookupSetting (insertOrIgnore t k v) k =
      some ((lookupSetting t k).getD v) := by
  unfold insertOrIgnore
  by_cases h : t.any (fun p => p.1 == k) = true
  · rw [if_pos h]
    obtain ⟨p, hp, hpk⟩ := List.any_eq_true.mp h
    have hsome : (t.find? (fun p => p.1 == k)).isSome = true :=
      List.find?_isSome.mpr ⟨p, hp, hpk⟩
    obtain ⟨q, hq⟩ := Option.isSome_iff_exists.mp hsome
    simp [lookupSetting, hq]
  · rw [if_neg h]
    have h' : t.any (fun p => p.1 == k) = false := by
      revert h; cases t.any (fun p => p.1 == k) <;> simp
    have hnone : t.find? (fun p => p.1 == k) = none :=
      List.find?_eq_none.mpr (List.any_eq_false.mp h')
    simp [lookupSetting, List.find?_append, hnone]

theorem lookupSetting_insertOrIgnore_other (t : List (String × String))
    (k v k' : String) (h : k' ≠ k) :
    lookupSetting (insertOrIgnore t k v) k' = lookupSetting t k' := by
  unfold insertOrIgnore
  by_cases ha : t.any (fun p => p.1 == k) = true
  · rw [if_pos ha]
  · rw [if_neg ha]
    have hk : (k == k') = false := by
      simp only [beq_eq_false_iff_ne]
      exact fun hkk => h hkk.symm
    simp [lookupSetting, List.find?_append, List.find?_cons, hk]

theorem insertOrIgnore_of_present (t : List (String × String)) (k v : String)
    (h : t.any (fun p => p.1 == k) = true) :
    insertOrIgnore t k v = t := by
  unfold insertOrIgnore
  rw [if_pos h]

theorem any_insertOrIgnore_self (t : List (String × String)) (k v : String) :
    (insertOrIgnore t k v).any (fun p => p.1 == k) = true := by
  unfold insertOrIgnore
  by_cases h : t.any (fun p => p.1 == k) = true
  · rw [if_pos h]; exact h
  · rw [if_neg h]; simp [List.any_append]

theorem any_insertOrIgnore_mono (t : List (String × String)) (k v : String)
    (f : String × String → Bool) (h : t.any f = true) :
    (insertOrIgnore t k v).any f = true := by
  unfold insertOrIgnore
  split
  · exact h
  · simp [List.any_append, h]

theorem any_foldl_settings_mono (L : List (String × String))
    (f : String × String → Bool) :
    ∀ t, t.any f = true → (L.foldl settingsStep t).any f = true := by
  induction L with
  | nil => intro t h; exact h
  | cons hd tl ih =>
    intro t h
    exact ih _ (any_insertOrIgnore_mono t hd.1 hd.2 f h)

theorem key_present_after_fold (L : List (String × String)) :
    ∀ t, ∀ kv ∈ L,
      ((L.foldl settingsStep t).any (fun p => p.1 == kv.1)) = true := by
  induction L with
  | nil => intro t kv hkv; simp at hkv
  | cons hd tl ih =>
    intro t kv hkv
    rcases List.mem_cons.mp hkv with he | hm
    · subst he
      rw [List.foldl_cons]
      exact any_foldl_settings_mono tl _ (settingsStep t kv)
        (any_insertOrIgnore_self t kv.1 kv.2)
    · exact ih (settingsStep t hd) kv hm

theorem foldl_settings_noop (L : List (String × String)) :
    ∀ t, (∀ kv ∈ L, t.any (fun p => p.1 == kv.1) = true) →
      L.foldl settingsStep t = t := by
  induction L with
  | nil => intro t _; rfl
  | cons hd tl ih =>
    intro t h
    have h1 : settingsStep t hd = t :=
      insertOrIgnore_of_present t hd.1 hd.2 (h hd (by simp))
    rw [List.foldl_cons, h1]
    exact ih t (fun kv hkv => h kv (by simp [hkv]))

theorem foldl_settings_idem (L : List (String × String))
    (t : List (String × String)) :
    L.foldl settingsStep (L.foldl settingsStep t) = L.foldl settingsStep t :=
  foldl_settings_noop L _ (fun kv hkv => key_present_after_fold L t kv hkv)

/-! ## Claims about `ensureBlacklistTables` and `InitDatabase` -/

/-- Claim C1: after `InitDatabase` completes successfully, `app_settings`
contains the keys `enable_blacklist`, `blacklist_failure_threshold` and
`blacklist_duration_minutes` with values "true", "3" and "30" respectively,
except that a key already present before initialization keeps its existing
value. -/
theorem initDatabase_default_settings (e : InitEnv) (db db' : AppDB)
    (h : (InitDatabase e db).1 = Except.ok db') :
    lookupSetting (db'.app_settings.getD []) "enable_blacklist" =
      some ((lookupSetting (db.app_settings.getD [])
        "enable_blacklist").getD "true") ∧
    lookupSetting (db'.app_settings.getD []) "blacklist_failure_threshold" =
      some ((lookupSetting (db.app_settings.getD [])
        "blacklist_failure_threshold").getD "3") ∧
    lookupSetting (db'.app_settings.getD []) "blacklist_duration_minutes" =
      some ((lookupSetting (db.app_settings.getD [])
        "blacklist_duration_minutes").getD "30") := by
  have hdb : db' = ensureBlacklistTables db := by
    unfold InitDatabase at h
    split_ifs at h <;> simp_all
  subst hdb
  unfold ensureBlacklistTables
  simp only [Option.getD_some]
  show lookupSetting (List.foldl settingsStep (db.app_settings.getD [])
    defaultSettings) "enable_blacklist" = _ ∧ _ ∧ _
  unfold defaultSettings
  simp only [List.foldl_cons, List.foldl_nil, settingsStep]
  refine ⟨?_, ?_, ?_⟩
  · rw [lookupSetting_insertOrIgnore_other _ _ _ _ (by decide),
        lookupSetting_insertOrIgnore_other _ _ _ _ (by decide),
        lookupSetting_insertOrIgnore_self]
  · rw [lookupSetting_insertOrIgnore_other _ _ _ _ (by decide),
        lookupSetting_insertOrIgnore_self,
        lookupSetting_insertOrIgnore_other _ _ _ _ (by decide)]
  · rw [lookupSetting_insertOrIgnore_self,
        lookupSetting_insertOrIgnore_other _ _ _ _ (by decide),
        lookupSetting_insertOrIgnore_other _ _ _ _ (by decide)]

theorem initDatabase_default_settings_witness :
    (InitDatabase {} { app_settings := some [("enable_blacklist", "false")],
                       provider_blacklist := none }).1 =
      Except.ok (ensureBlacklistTables
        { app_settings := some [("enable_blacklist", "false")],
          provider_blacklist := none }) ∧
    lookupSetting ((ensureBlacklistTables
      { app_settings := some [("enable_blacklist", "false")],
        provider_blacklist := none }).app_settings.getD [])
      "enable_blacklist" = some "false" :=
  ⟨rfl, (initDatabase_default_settings {} _ _ rfl).1⟩

/-- Claim C3: a freshly created row, given only `platform` and
`provider_name`, takes the schema defaults: zero counters, cleared flag, and
null timestamps. -/
theorem newBlacklistRow_healthy (p n : String) :
    (newBlacklistRow p n).failure_count = 0 ∧
    (newBlacklistRow p n).blacklist_level = 0 ∧
    (newBlacklistRow p n).last_degrade_hour = 0 ∧
    (newBlacklistRow p n).auto_recovered = false ∧
    (newBlacklistRow p n).blacklisted_at = none ∧
    (newBlacklistRow p n).blacklisted_until = none ∧
    (newBlacklistRow p n).last_failure_at = none ∧
    (newBlacklistRow p n).last_recovered_at = none ∧
    (newBlacklistRow p n).last_failure_window_start = none :=
  ⟨rfl, rfl, rfl, rfl, rfl, rfl, rfl, rfl, rfl⟩

/-- Claim C4: `ensureBlacklistTables` is idempotent — running it a second
time on a store where it already succeeded changes nothing. -/
theorem ensureBlacklistTables_idem (db : AppDB) :
    ensureBlacklistTables (ensureBlacklistTables db) =
      ensureBlacklistTables db := by
  unfold ensureBlacklistTables
  simp [foldl_settings_idem]

/-! ## Claims about the `provider_blacklist` store -/

theorem updateRow_key_preserve (p n : String)
    (f : BlacklistRow → BlacklistRow) (r : BlacklistRow) :
    ((if r.platform = p ∧ r.provider_name = n then
        { f r with platform := r.platform, provider_name := r.provider_name }
      else r) : BlacklistRow).platform = r.platform ∧
    ((if r.platform = p ∧ r.provider_name = n then
        { f r with platform := r.platform, provider_name := r.provider_name }
      else r) : BlacklistRow).provider_name = r.provider_name := by
  split <;> exact ⟨rfl, rfl⟩

theorem reachable_keyDistinct {t : List BlacklistRow}
    (h : Reachable t) : KeyDistinct t := by
  induction h with
  | empty => exact List.Pairwise.nil
  | @insertStep t t' r _ hins ih =>
    unfold insertRow at hins
    by_cases hk : hasKey t r.platform r.provider_name = true
    · rw [if_pos hk] at hins
      exact absurd hins (by simp)
    · rw [if_neg hk] at hins
      have ht' : t ++ [r] = t' := by
        injection hins
      subst ht'
      unfold KeyDistinct
      rw [List.pairwise_append]
      refine ⟨ih, List.pairwise_singleton _ _, ?_⟩
      intro a ha b hb
      have hb' : b = r := by simpa using hb
      subst hb'
      have hk' : t.any
          (fun x => x.platform == b.platform && x.provider_name == b.provider_name) = false := by
        revert hk
        unfold hasKey
        cases t.any (fun x => x.platform == b.platform && x.provider_name == b.provider_name) <;>
          simp
      have hne := List.any_eq_false.mp hk' a ha
      simp only [Bool.and_eq_true, beq_iff_eq, not_and] at hne
      by_cases hp : a.platform = b.platform
      · exact Or.inr (hne hp)
      · exact Or.inl hp
  | updateStep p n f _ ih =>
    unfold updateRow
    refine List.Pairwise.map _ ?_ ih
    intro a b hab
    rcases updateRow_key_preserve p n f a with ⟨ha1, ha2⟩
    rcases updateRow_key_preserve p n f b with ⟨hb1, hb2⟩
    rw [ha1, hb1, ha2, hb2]
    exact hab

/-- Claim C2: in every state reachable through the store's operations, the
`provider_blacklist` table has at most one row per (platform, provider_name)
pair — any two distinct rows differ in `platform` or `provider_name` — and an
attempted insert of a duplicate pair is rejected. -/
theorem provider_blacklist_unique (t : List BlacklistRow)
    (h : Reachable t) :
    KeyDistinct t ∧
      ∀ r : BlacklistRow, hasKey t r.platform r.provider_name = true →
        insertRow t r = none := by
  refine ⟨reachable_keyDistinct h, ?_⟩
  intro r hk
  unfold insertRow
  rw [if_pos hk]

theorem provider_blacklist_unique_witness :
    KeyDistinct [newBlacklistRow "claude" "p1", newBlacklistRow "claude" "p2"] ∧
      ∀ r : BlacklistRow,
        hasKey [newBlacklistRow "claude" "p1", newBlacklistRow "claude" "p2"]
          r.platform r.provider_name = true →
        insertRow [newBlacklistRow "claude" "p1", newBlacklistRow "claude" "p2"]
          r = none :=
  provider_blacklist_unique _
    (Reachable.insertStep
      (Reachable.insertStep Reachable.empty
        (by decide : insertRow [] (newBlacklistRow "claude" "p1") =
          some [newBlacklistRow "claude" "p1"]))
      (by decide : insertRow [newBlacklistRow "claude" "p1"]
          (newBlacklistRow "claude" "p2") =
        some [newBlacklistRow "claude" "p1", newBlacklistRow "claude" "p2"]))

/-- Claim C10: `InitDatabase` returns an error exactly when one of the five
fallible steps fails (home-directory lookup, config-directory creation,
connection-pool initialization, `request_log` table creation, blacklist
table creation); a prewarm failure never changes the returned result. -/
theorem initDatabase_error_conditions (e : InitEnv) (db : AppDB) :
    (initOk (InitDatabase e db).1 = true ↔
      e.userHomeDirFails = false ∧ e.mkdirAllFails = false ∧
      e.xdbInitsFails = false ∧ e.requestLogTableFails = false ∧
      e.blacklistTablesFails = false) ∧
    ∀ b1 b2 : Bool,
      initOk (InitDatabase
        { e with prewarmDBFails := b1, prewarmQueryFails := b2 } db).1 =
        initOk (InitDatabase e db).1 := by
  obtain ⟨a, b, c, d, f, g, h⟩ := e
  constructor
  · cases a <;> cases b <;> cases c <;> cases d <;> cases f <;> cases g <;>
      cases h <;> simp [InitDatabase, initOk]
  · intro b1 b2
    cases a <;> cases b <;> cases c <;> cases d <;> cases f <;>
      cases b1 <;> cases b2 <;> cases g <;> cases h <;>
      simp [InitDatabase, initOk]

/-! ## Claims about the spec-modelled blacklist engine -/

/-- Claim C5: with `enable_blacklist` off, `IsBlacklisted` returns false for
every provider and every stored state, and touches nothing. -/
theorem isBlacklisted_disabled (s : BlacklistSettings) (now : Nat)
    (r : Option ProviderHealthRecord) (h : s.enabled = false) :
    isBlacklisted s now r = (false, r) := by
  unfold isBlacklisted
  rw [if_pos h]

theorem isBlacklisted_disabled_witness :
    ({ enabled := false, failureThreshold := 3,
       blacklistDurationMinutes := 30 } : BlacklistSettings).enabled = false ∧
    isBlacklisted
      { enabled := false, failureThreshold := 3, blacklistDurationMinutes := 30 }
      10 (some sampleBlacklisted) = (false, some sampleBlacklisted) :=
  ⟨rfl, isBlacklisted_disabled _ 10 _ rfl⟩

theorem windowReset_count_le (s : BlacklistSettings) (now : Nat)
    (r : ProviderHealthRecord) :
    (windowReset s now r).failureCount ≤ r.failureCount := by
  unfold windowReset
  cases hw : r.failureWindowStart with
  | none => simp
  | some ws =>
    simp only
    split <;> simp

theorem windowReset_until (s : BlacklistSettings) (now : Nat)
    (r : ProviderHealthRecord) :
    (windowReset s now r).blacklistedUntil = r.blacklistedUntil := by
  unfold windowReset
  cases hw : r.failureWindowStart with
  | none => rfl
  | some ws =>
    simp only
    split <;> rfl

theorem windowReset_level (s : BlacklistSettings) (now : Nat)
    (r : ProviderHealthRecord) :
    (windowReset s now r).blacklistLevel = r.blacklistLevel := by
  unfold windowReset
  cases hw : r.failureWindowStart with
  | none => rfl
  | some ws =>
    simp only
    split <;> rfl

theorem windowReset_ldh (s : BlacklistSettings) (now : Nat)
    (r : ProviderHealthRecord) :
    (windowReset s now r).lastDegradeHour = r.lastDegradeHour := by
  unfold windowReset
  cases hw : r.failureWindowStart with
  | none => rfl
  | some ws =>
    simp only
    split <;> rfl

theorem recordFailure_below_threshold (s : BlacklistSettings) :
    ∀ (ts : List Nat) (r : ProviderHealthRecord),
      r.blacklistedUntil = none →
      r.failureCount + ts.length < s.failureThreshold →
      (ts.foldl (fun a t => recordFailure s t a) r).blacklistedUntil =
        none := by
  intro ts
  induction ts with
  | nil => intro r h _; exact h
  | cons t ts ih =>
    intro r hun hcnt
    have hcle : (windowReset s t r).failureCount ≤ r.failureCount :=
      windowReset_count_le s t r
    have hlen : r.failureCount + ts.length + 1 < s.failureThreshold := by
      simp only [List.length_cons] at hcnt
      omega
    have hcond : ¬ (s.failureThreshold ≤
        ({ windowReset s t r with
            failureCount := (windowReset s t r).failureCount + 1,
            lastFailureAt := some t } : ProviderHealthRecord).failureCount ∧
        s.enabled = true) := by
      intro hc
      have h1 : s.failureThreshold ≤ (windowReset s t r).failureCount + 1 :=
        hc.1
      omega
    have hstep : recordFailure s t r =
        { windowReset s t r with
            failureCount := (windowReset s t r).failureCount + 1,
            lastFailureAt := some t } := by
      unfold recordFailure
      rw [if_neg hcond]
    rw [List.foldl_cons]
    refine ih (recordFailure s t r) ?_ ?_
    · rw [hstep]
      exact (windowReset_until s t r).trans hun
    · rw [hstep]
      show (windowReset s t r).failureCount + 1 + ts.length <
        s.failureThreshold
      omega

/-- Claim C6: starting from a healthy record, fewer than `failureThreshold`
`RecordFailure` calls inside one counting window never set
`blacklistedUntil`. -/
theorem below_threshold_never_blacklists (s : BlacklistSettings)
    (t0 : Nat) (ts : List Nat)
    (_hwin : ∀ t ∈ t0 :: ts, t0 ≤ t ∧ t - t0 ≤ s.blacklistDurationMinutes)
    (hlen : (t0 :: ts).length < s.failureThreshold) :
    ((t0 :: ts).foldl (fun a t => recordFailure s t a)
      healthyRecord).blacklistedUntil = none :=
  recordFailure_below_threshold s (t0 :: ts) healthyRecord rfl
    (by show 0 + (t0 :: ts).length < s.failureThreshold
        rw [Nat.zero_add]
        exact hlen)

theorem below_threshold_never_blacklists_witness :
    (∀ t ∈ ([0, 1] : List Nat), 0 ≤ t ∧ t - 0 ≤ 30) ∧
    ([0, 1] : List Nat).length < 3 ∧
    (([0, 1] : List Nat).foldl
      (fun a t => recordFailure ⟨true, 3, 30⟩ t a)
      healthyRecord).blacklistedUntil = none :=
  ⟨by decide, by decide,
    below_threshold_never_blacklists ⟨true, 3, 30⟩ 0 [1] (by decide)
      (by decide)⟩

theorem escalate_eq (s : BlacklistSettings) (now : Nat)
    (r : ProviderHealthRecord) :
    escalate s now r =
      (if r.lastDegradeHour = now / 60 then r
       else
        { r with
            blacklistLevel := min (r.blacklistLevel + 1) maxBlacklistLevel,
            lastDegradeHour := now / 60,
            blacklistedAt :=
              (match r.blacklistedUntil with
               | some u => if now < u then r.blacklistedAt else some now
               | none => some now),
            blacklistedUntil := some (now + s.blacklistDurationMinutes *
              backoff (min (r.blacklistLevel + 1) maxBlacklistLevel)),
            autoRecovered := false }) := rfl

theorem recordFailure_eq (s : BlacklistSettings) (t : Nat)
    (r : ProviderHealthRecord) :
    recordFailure s t r =
      (if s.failureThreshold ≤ (windowReset s t r).failureCount + 1 ∧
          s.enabled = true then
        escalate s t
          { windowReset s t r with
              failureCount := (windowReset s t r).failureCount + 1,
              lastFailureAt := some t }
       else
        { windowReset s t r with
            failureCount := (windowReset s t r).failureCount + 1,
            lastFailureAt := some t }) := rfl

theorem recordFailure_guard_closed (s : BlacklistSettings) (t : Nat)
    (r : ProviderHealthRecord) (h : r.lastDegradeHour = t / 60) :
    (recordFailure s t r).blacklistLevel = r.blacklistLevel ∧
    (recordFailure s t r).lastDegradeHour = r.lastDegradeHour := by
  have h1 : ({ windowReset s t r with
      failureCount := (windowReset s t r).failureCount + 1,
      lastFailureAt := some t } : ProviderHealthRecord).lastDegradeHour =
      t / 60 :=
    (windowReset_ldh s t r).trans h
  rw [recordFailure_eq]
  split
  · rw [escalate_eq, if_pos h1]
    exact ⟨windowReset_level s t r, windowReset_ldh s t r⟩
  · exact ⟨windowReset_level s t r, windowReset_ldh s t r⟩

theorem recordFailure_level_step (s : BlacklistSettings) (t : Nat)
    (r : ProviderHealthRecord) :
    ((recordFailure s t r).blacklistLevel = r.blacklistLevel ∧
     (recordFailure s t r).lastDegradeHour = r.lastDegradeHour) ∨
    ((recordFailure s t r).lastDegradeHour = t / 60 ∧
     (recordFailure s t r).blacklistLevel ≤ r.blacklistLevel + 1) := by
  by_cases hg : r.lastDegradeHour = t / 60
  · exact Or.inl (recordFailure_guard_closed s t r hg)
  · have h1 : ¬ ({ windowReset s t r with
        failureCount := (windowReset s t r).failureCount + 1,
        lastFailureAt := some t } : ProviderHealthRecord).lastDegradeHour =
        t / 60 := by
      show ¬ (windowReset s t r).lastDegradeHour = t / 60
      rw [windowReset_ldh]
      exact hg
    rw [recordFailure_eq]
    split
    · rw [escalate_eq, if_neg h1]
      refine Or.inr ⟨rfl, ?_⟩
      show min ((windowReset s t r).blacklistLevel + 1) maxBlacklistLevel ≤
        r.blacklistLevel + 1
      rw [windowReset_level]
      exact min_le_left _ _
    · exact Or.inl ⟨windowReset_level s t r, windowReset_ldh s t r⟩

theorem recordFailure_frozen (s : BlacklistSettings) (H : Nat) :
    ∀ (ts : List Nat) (r : ProviderHealthRecord),
      r.lastDegradeHour = H → (∀ t ∈ ts, t / 60 = H) →
      ((ts.foldl (fun a t => recordFailure s t a) r).blacklistLevel =
          r.blacklistLevel ∧
       (ts.foldl (fun a t => recordFailure s t a) r).lastDegradeHour = H) := by
  intro ts
  induction ts with
  | nil => intro r h _; exact ⟨rfl, h⟩
  | cons t ts ih =>
    intro r h hall
    have ht : t / 60 = H := hall t (by simp)
    have hstep := recordFailure_guard_closed s t r (h.trans ht.symm)
    rw [List.foldl_cons]
    have hrest := ih (recordFailure s t r) (hstep.2.trans h)
      (fun u hu => hall u (by simp [hu]))
    exact ⟨hrest.1.trans hstep.1, hrest.2⟩

theorem hour_guard_aux (s : BlacklistSettings) (H : Nat) :
    ∀ (ts : List Nat) (r : ProviderHealthRecord),
      (∀ t ∈ ts, t / 60 = H) →
      (((ts.foldl (fun a t => recordFailure s t a) r).blacklistLevel =
          r.blacklistLevel ∧
        (ts.foldl (fun a t => recordFailure s t a) r).lastDegradeHour =
          r.lastDegradeHour) ∨
       ((ts.foldl (fun a t => recordFailure s t a) r).lastDegradeHour = H ∧
        (ts.foldl (fun a t => recordFailure s t a) r).blacklistLevel ≤
          r.blacklistLevel + 1)) := by
  intro ts
  induction ts with
  | nil => intro r _; exact Or.inl ⟨rfl, rfl⟩
  | cons t ts ih =>
    intro r hall
    have ht : t / 60 = H := hall t (by simp)
    rw [List.foldl_cons]
    rcases recordFailure_level_step s t r with ⟨hl, hh⟩ | ⟨hh, hl⟩
    · rcases ih (recordFailure s t r) (fun u hu => hall u (by simp [hu]))
        with ⟨il, ihh⟩ | ⟨ihh, il⟩
      · exact Or.inl ⟨il.trans hl, ihh.trans hh⟩
      · refine Or.inr ⟨ihh, ?_⟩
        rw [hl] at il
        exact il
    · have hfr := recordFailure_frozen s H ts (recordFailure s t r)
        (hh.trans ht) (fun u hu => hall u (by simp [hu]))
      refine Or.inr ⟨hfr.2, ?_⟩
      rw [hfr.1]
      exact hl

/-- Claim C7: within a single calendar hour, any volume of recorded failures
raises `blacklistLevel` by at most 1 (the hour-guard blocks a second
escalation in the same hour bucket). -/
theorem blacklistLevel_hour_guard (s : BlacklistSettings) (H : Nat)
    (ts : List Nat) (r : ProviderHealthRecord)
    (hH : ∀ t ∈ ts, t / 60 = H) :
    (ts.foldl (fun a t => recordFailure s t a) r).blacklistLevel ≤
      r.blacklistLevel + 1 := by
  rcases hour_guard_aux s H ts r hH with ⟨hl, _⟩ | ⟨_, hl⟩
  · omega
  · exact hl

theorem blacklistLevel_hour_guard_witness :
    (∀ t ∈ ([60, 61, 62, 63] : List Nat), t / 60 = 1) ∧
    (([60, 61, 62, 63] : List Nat).foldl
      (fun a t => recordFailure ⟨true, 1, 30⟩ t a)
      healthyRecord).blacklistLevel ≤ healthyRecord.blacklistLevel + 1 :=
  ⟨by decide,
    blacklistLevel_hour_guard ⟨true, 1, 30⟩ 1 [60, 61, 62, 63]
      healthyRecord (by decide)⟩

/-- Claim C8: the first `IsBlacklisted` call at or after `blacklistedUntil`
returns false, clears `blacklistedAt`/`blacklistedUntil`, sets
`autoRecovered` and `lastRecoveredAt = now`, keeps `blacklistLevel`; later
calls without intervening failures keep returning false and change
nothing. -/
theorem isBlacklisted_lazy_expiry (s : BlacklistSettings)
    (r : ProviderHealthRecord) (u now later : Nat)
    (hs : s.enabled = true) (hu : r.blacklistedUntil = some u)
    (hexp : u ≤ now) :
    isBlacklisted s now (some r) = (false, some (recoverRecord now r)) ∧
    (recoverRecord now r).blacklistedAt = none ∧
    (recoverRecord now r).blacklistedUntil = none ∧
    (recoverRecord now r).autoRecovered = true ∧
    (recoverRecord now r).lastRecoveredAt = some now ∧
    (recoverRecord now r).blacklistLevel = r.blacklistLevel ∧
    isBlacklisted s later (some (recoverRecord now r)) =
      (false, some (recoverRecord now r)) := by
  have hsne : ¬ s.enabled = false := by simp [hs]
  refine ⟨?_, rfl, rfl, rfl, rfl, rfl, ?_⟩
  · unfold isBlacklisted
    rw [if_neg hsne]
    simp [hu, hexp]
  · unfold isBlacklisted
    rw [if_neg hsne]
    simp [recoverRecord]

theorem isBlacklisted_lazy_expiry_witness :
    ({ enabled := true, failureThreshold := 3,
       blacklistDurationMinutes := 30 } : BlacklistSettings).enabled = true ∧
    sampleBlacklisted.blacklistedUntil = some 30 ∧ 30 ≤ 31 ∧
    (isBlacklisted
        { enabled := true, failureThreshold := 3,
          blacklistDurationMinutes := 30 } 31 (some sampleBlacklisted) =
      (false, some (recoverRecord 31 sampleBlacklisted)) ∧
     (recoverRecord 31 sampleBlacklisted).blacklistedAt = none ∧
     (recoverRecord 31 sampleBlacklisted).blacklistedUntil = none ∧
     (recoverRecord 31 sampleBlacklisted).autoRecovered = true ∧
     (recoverRecord 31 sampleBlacklisted).lastRecoveredAt = some 31 ∧
     (recoverRecord 31 sampleBlacklisted).blacklistLevel =
       sampleBlacklisted.blacklistLevel ∧
     isBlacklisted
        { enabled := true, failureThreshold := 3,
          blacklistDurationMinutes := 30 } 45
        (some (recoverRecord 31 sampleBlacklisted)) =
      (false, some (recoverRecord 31 sampleBlacklisted))) :=
  ⟨rfl, rfl, by decide,
    isBlacklisted_lazy_expiry _ sampleBlacklisted 30 31 45 rfl rfl
      (by decide)⟩

/-- Claim C9: `RecordSuccess` on a currently blacklisted provider changes
nothing; in particular `blacklistedUntil` is never moved earlier, so a
success never shortens or ends a cooldown. -/
theorem recordSuccess_blacklisted_frame (now u : Nat)
    (r : ProviderHealthRecord) (hu : r.blacklistedUntil = some u)
    (_hcur : now < u) :
    recordSuccess now r = r ∧
    (recordSuccess now r).blacklistedUntil = some u :=
  ⟨rfl, hu⟩

theorem recordSuccess_blacklisted_frame_witness :
    sampleBlacklisted.blacklistedUntil = some 30 ∧ 10 < 30 ∧
    (recordSuccess 10 sampleBlacklisted = sampleBlacklisted ∧
     (recordSuccess 10 sampleBlacklisted).blacklistedUntil = some 30) :=
  ⟨rfl, by decide,
    recordSuccess_blacklisted_frame 10 30 sampleBlacklisted rfl (by decide)⟩

end CodeSwitch
